import Mathlib

/-!
# Verification of the stufio schedules module (three-tier event scheduler)

Shallow embedding of the scheduling engine of `stufio-modules-schedules`:
the K-tier (Redis) hot queue with its value records, time-sorted index and
claim discipline (`crud/crud_redis_scheduled_event.py`), the dispatcher
(`services/three_tier_scheduler.py`), the tier-placement decision of
`HybridSchedulerService.schedule_event` (`services/scheduler_service.py`)
and the cron generator (`ThreeTierSchedulerService._process_mongo_schedule`
together with `crud/crud_mongo_schedule.py`).

Conventions of the embedding:
* wall-clock datetimes are integers (Unix seconds); `datetime.isoformat()`
  strings stamped into headers are modelled as the decimal string of that
  integer;
* Redis values are stored serialized; a stored blob either deserializes to
  an event (`RedisBlob.ok`) or fails JSON decoding / schema validation
  (`RedisBlob.corrupt`), which is how `_deserialize_event` failures surface;
* the Redis value keyspace and the sorted index are association lists keyed
  by event id (sorted-set members are unique, so keys are unique);
* each CRUD method runs under the per-id `Lock`, so it is modelled as one
  atomic state transition.
-/

namespace Schedules

/-- Lookup in an association list keyed by strings (Redis GET / per-key read). -/
def aget {α : Type} (k : String) : List (String × α) → Option α
  | [] => none
  | (k', v) :: t => if k' = k then some v else aget k t

/-- Remove a key from an association list (Redis DEL / ZREM). -/
def aremove {α : Type} (k : String) : List (String × α) → List (String × α)
  | [] => []
  | (k', v) :: t => if k' = k then aremove k t else (k', v) :: aremove k t

/-- Set a key in an association list (Redis SETEX / ZADD: replace or insert). -/
def aset {α : Type} (k : String) (v : α) (l : List (String × α)) : List (String × α) :=
  (k, v) :: aremove k l

/-! ## K-tier (Redis) data model — `models/redis_scheduled_event.py`,
`schemas/redis_scheduled_event.py` -/

/-- `RedisScheduleStatus` from `models/redis_scheduled_event.py`. -/
inductive RedisStatus
  | pending
  | reserved
  | completed
  | error
deriving DecidableEq, Repr

/-- String value of a `RedisScheduleStatus` (the enum is a `str` enum). -/
def RedisStatus.str : RedisStatus → String
  | .pending => "pending"
  | .reserved => "reserved"
  | .completed => "completed"
  | .error => "error"

/-- `RedisScheduledEventResponse`: the record serialized into the K value.
Header values and payload values are strings / integers respectively. -/
structure RedisEvent where
  event_id : String
  topic : String
  entity_type : String
  action : String
  entity_id : Option String
  actor_type : String
  actor_id : String
  payload : List (String × Int)
  headers : List (String × String)
  scheduled_at : Int
  priority : Int
  source : String
  source_id : Option String
  clickhouse_schedule_id : Option String
  max_retries : Nat
  correlation_id : String
  status : RedisStatus
  created_at : Int
  updated_at : Option Int
  reserved_at : Option Int
  reserved_by : Option String
  processed_at : Option Int
  retry_count : Nat
deriving DecidableEq, Repr

/-- A stored value blob: either it deserializes cleanly, or
`_deserialize_event` raises (`json.JSONDecodeError` / `ValidationError`). -/
inductive RedisBlob
  | ok (e : RedisEvent)
  | corrupt
deriving DecidableEq, Repr

/-- A live Redis value record together with the TTL it was last SETEXed with. -/
structure RedisValue where
  blob : RedisBlob
  ttl : Int
deriving DecidableEq, Repr

/-- The K-tier store: value records keyed by event id, the time-sorted
index (`scheduled_events_index`, member ↦ score), and the stats hash. -/
structure RedisState where
  values : List (String × RedisValue)
  index : List (String × Int)
  stats : List (String × Int)
deriving DecidableEq, Repr

/-- Increment a stats-hash field by `n` (Redis HINCRBY). -/
def bump (k : String) (n : Int) (l : List (String × Int)) : List (String × Int) :=
  match aget k l with
  | none => aset k n l
  | some m => aset k (m + n) l

/-- Delete a value record together with its index entry
(a `pipe.delete` + `pipe.zrem` pair on the same id). -/
def removeBoth (s : RedisState) (event_id : String) : RedisState :=
  { s with values := aremove event_id s.values, index := aremove event_id s.index }

/-- SETEX a value record, leaving the index and stats alone. -/
def storeValue (s : RedisState) (event_id : String) (v : RedisValue) : RedisState :=
  { s with values := aset event_id v s.values }

/-- `CRUDRedisScheduledEvent.get`: read the value blob; on a blob that fails
to deserialize, delete the value and its index entry and return nothing. -/
def getEv (s : RedisState) (event_id : String) : Option RedisEvent × RedisState :=
  match aget event_id s.values with
  | none => (none, s)
  | some v =>
    match v.blob with
    | .ok e => (some e, s)
    | .corrupt => (none, removeBoth s event_id)

/-- `RedisScheduledEventCreate` fields (`schemas/redis_scheduled_event.py`). -/
structure RedisEventCreate where
  topic : String
  entity_type : String
  action : String
  entity_id : Option String
  actor_type : String
  actor_id : String
  payload : List (String × Int)
  headers : List (String × String)
  scheduled_at : Int
  priority : Int
  source : String
  source_id : Option String
  clickhouse_schedule_id : Option String
  max_retries : Nat
  correlation_id : Option String
deriving DecidableEq, Repr

/-- The pydantic error raised by the Response construction inside
`CRUDRedisScheduledEvent.create`. -/
def redisCreateValidationErr : String :=
  "ValidationError: event_id, status and retry_count are required"

/-- `CRUDRedisScheduledEvent.create`: validate the scheduling window, then
construct `RedisScheduledEventResponse(**event_create.model_dump(),
created_at=now)`. The Response schema requires `event_id`, `status` and
`retry_count` with no defaults; none of them is supplied and no event id
is generated anywhere, so this construction raises `ValidationError` on
every call before the SETEX/ZADD pipeline runs — `create` never stores
anything and never returns. -/
def redis_create (s : RedisState) (c : RedisEventCreate) (now : Int) :
    Except String (RedisEvent × RedisState) :=
  if c.scheduled_at ≤ now then
    .error "Scheduled time must be in the future"
  else if c.scheduled_at > now + 3600 then
    .error "Redis events can only be scheduled up to 1 hour in advance"
  else
    .error redisCreateValidationErr

/-- The updated record `claim_for_processing` writes back: status flipped
to `reserved`, `updated_at` stamped, and `processor_id` / `claimed_at`
stored into the headers (in that order). -/
def reservedCopy (e : RedisEvent) (processor_id : String) (now : Int) : RedisEvent :=
  { e with
    status := .reserved
    updated_at := some now
    headers := aset "claimed_at" (toString now)
                 (aset "processor_id" processor_id e.headers) }

/-- `CRUDRedisScheduledEvent.claim_for_processing`: under the per-id lock,
read the event; fail if it is missing or not `pending`; otherwise write
back the `reservedCopy` with a fresh time-to-fire + 2 h TTL. -/
def claim_for_processing (s : RedisState) (event_id processor_id : String)
    (now : Int) : Bool × RedisState :=
  match getEv s event_id with
  | (none, s') => (false, s')
  | (some e, s') =>
    if e.status ≠ .pending then (false, s')
    else
      let e' := reservedCopy e processor_id now
      let ttl := (e'.scheduled_at - now) + 7200
      (true, storeValue s' event_id ⟨.ok e', ttl⟩)

/-- The record written back by `mark_processed`: terminal status
(`completed` / `error`), `processed_at` and `updated_at` stamps, and the
error message stored into the headers when one is given. -/
def processedCopy (e : RedisEvent) (success : Bool)
    (error_message : Option String) (now : Int) : RedisEvent :=
  let e1 := { e with
    status := if success then RedisStatus.completed else RedisStatus.error
    processed_at := some now
    updated_at := some now }
  match error_message with
  | some m => { e1 with headers := aset "error_message" m e1.headers }
  | none => e1

/-- `CRUDRedisScheduledEvent.mark_processed`: set the terminal status via
`processedCopy`, then in one pipeline SETEX the value with a 1 h analytics
TTL, ZREM the index entry and bump a stats counter. -/
def mark_processed (s : RedisState) (event_id : String) (success : Bool)
    (error_message : Option String) (now : Int) : Bool × RedisState :=
  match getEv s event_id with
  | (none, s') => (false, s')
  | (some e, s') =>
    let e2 := processedCopy e success error_message now
    (true, { s' with
      values := aset event_id ⟨.ok e2, 3600⟩ s'.values
      index := aremove event_id s'.index
      stats := bump ("total_" ++ e2.status.str) 1 s'.stats })

/-- `RedisScheduledEventUpdate` (`schemas/redis_scheduled_event.py`):
`none` models a field absent from the update (pydantic `exclude_unset`). -/
structure RedisEventUpdate where
  topic : Option String := none
  entity_type : Option String := none
  action : Option String := none
  entity_id : Option String := none
  actor_type : Option String := none
  actor_id : Option String := none
  payload : Option (List (String × Int)) := none
  headers : Option (List (String × String)) := none
  scheduled_at : Option Int := none
  priority : Option Int := none
  status : Option RedisStatus := none
  max_retries : Option Nat := none
deriving DecidableEq, Repr

/-- `setattr` loop of `CRUDRedisScheduledEvent.update`: overwrite exactly
the fields present in the update. -/
def applyUpdate (e : RedisEvent) (u : RedisEventUpdate) : RedisEvent :=
  { e with
    topic := u.topic.getD e.topic
    entity_type := u.entity_type.getD e.entity_type
    action := u.action.getD e.action
    entity_id := match u.entity_id with | some x => some x | none => e.entity_id
    actor_type := u.actor_type.getD e.actor_type
    actor_id := u.actor_id.getD e.actor_id
    payload := u.payload.getD e.payload
    headers := u.headers.getD e.headers
    scheduled_at := u.scheduled_at.getD e.scheduled_at
    priority := u.priority.getD e.priority
    status := u.status.getD e.status
    max_retries := u.max_retries.getD e.max_retries }

/-- `CRUDRedisScheduledEvent.update`: under the per-id lock, read the event
(`None` if missing), validate a new `scheduled_at` against the 1 h window,
apply the updates, stamp `updated_at`, SETEX the value back with a fresh
time-to-fire + 2 h TTL, and ZADD the index only when `scheduled_at` was in
the update. -/
def redis_update (s : RedisState) (event_id : String) (u : RedisEventUpdate)
    (now : Int) : Except String (Option RedisEvent × RedisState) :=
  match getEv s event_id with
  | (none, s') => .ok (none, s')
  | (some e, s') =>
    let e' := { applyUpdate e u with updated_at := some now }
    let ttl := (e'.scheduled_at - now) + 7200
    match u.scheduled_at with
    | some t =>
      if t ≤ now then .error "Scheduled time must be in the future"
      else if t > now + 3600 then
        .error "Redis events can only be scheduled up to 1 hour in advance"
      else
        .ok (some e', { s' with
          values := aset event_id ⟨.ok e', ttl⟩ s'.values
          index := aset event_id e'.scheduled_at s'.index })
    | none =>
      .ok (some e', { s' with values := aset event_id ⟨.ok e', ttl⟩ s'.values })

/-- `CRUDRedisScheduledEvent.delete`: under the per-id lock, DEL the value
and ZREM the index entry in one pipeline; report whether a value existed
(and bump the deletion stat if so). -/
def redis_delete (s : RedisState) (event_id : String) : Bool × RedisState :=
  let deleted := (aget event_id s.values).isSome
  let s' := removeBoth s event_id
  (deleted, if deleted then { s' with stats := bump "total_deleted" 1 s'.stats } else s')

/-- One iteration of the `cleanup_expired` scan: `get` the event (which
already drops a corrupt value and its index entry), then remove the value
and index entry when the event is missing or still `pending`; the cleaned
counter counts removals whose DEL hit a live value (only the pending case
does — a missing or corrupt value is already gone when the DEL runs).
The source queues the removals in a pipeline executed after the scan; as
index members are distinct and each iteration reads only its own key,
applying each removal immediately is equivalent. -/
def cleanupStep (acc : RedisState × Nat) (event_id : String) : RedisState × Nat :=
  let (st, cnt) := acc
  match getEv st event_id with
  | (none, st') => (removeBoth st' event_id, cnt)
  | (some e, st') =>
    if e.status = RedisStatus.pending then (removeBoth st' event_id, cnt + 1)
    else (st', cnt)

/-- The ZRANGEBYSCORE selection of `cleanup_expired`: members of the index
whose score lies in `[0, now − 300]` (the 5 min grace period). -/
def expiredIdsOf (s : RedisState) (now : Int) : List String :=
  (s.index.filter (fun p => decide (0 ≤ p.2) && decide (p.2 ≤ now - 300))).map Prod.fst

/-- The scan loop of `cleanup_expired` over the expired ids. -/
def cleanupScan (s : RedisState) (now : Int) : RedisState × Nat :=
  (expiredIdsOf s now).foldl cleanupStep (s, 0)

/-- `CRUDRedisScheduledEvent.cleanup_expired`: take the index entries whose
score lies in `[0, now − 300]`, scan them with `cleanupStep`, and bump the
cleaned counter when anything was cleaned. -/
def cleanup_expired (s : RedisState) (now : Int) : Nat × RedisState :=
  if (expiredIdsOf s now).isEmpty then (0, s)
  else
    let scan := cleanupScan s now
    (scan.2,
      if 0 < scan.2 then
        { scan.1 with stats := bump "total_expired_cleaned" (scan.2 : Int) scan.1.stats }
      else scan.1)

/-! ## Dispatcher — `ThreeTierSchedulerService._process_redis_event` -/

/-- `AnalyticsLevel` (`models/schedule_analytics.py`). -/
inductive ALevel
  | info
  | warning
  | error
deriving DecidableEq, Repr

/-- The part of a `ScheduleAnalyticsCreate` row the dispatcher fills in. -/
structure AnalyticsRec where
  level : ALevel
  event_type : String
  schedule_id : Option String
deriving DecidableEq, Repr

/-- The Kafka message dict built by `_process_redis_event`. -/
structure KafkaMessage where
  event_id : String
  event_type : String
  event_action : String
  event_data : List (String × Int)
  scheduled_at : Int
  published_at : Int
  source : String
  source_id : Option String
  priority : Int
  queue_time_ms : Int
  metadata : List (String × String)
deriving DecidableEq, Repr

/-- Result of one `_process_redis_event` call. -/
inductive ProcessOutcome
  | notClaimed
  | published (msg : KafkaMessage)
  | failed (err : String)
deriving DecidableEq, Repr

/-- The Kafka message dict built by `_process_redis_event` from the
candidate record `e`: queue time is the Redis queue time plus any
ClickHouse queue time carried in the payload, and the metadata field is
the candidate's headers. -/
def publishedMsg (e : RedisEvent) (now : Int) : KafkaMessage :=
  { event_id := e.event_id
    event_type := e.entity_type
    event_action := e.action
    event_data := e.payload
    scheduled_at := e.scheduled_at
    published_at := now
    source := e.source
    source_id := e.source_id
    priority := e.priority
    queue_time_ms := (now - e.created_at) * 1000 + ((aget "queue_time_ms" e.payload).getD 0)
    metadata := e.headers }

/-- `ThreeTierSchedulerService._process_redis_event`: claim the event
(skip if the claim fails), build the Kafka message from the candidate
record, publish, and mark the event processed — `success=True` after a
successful publish, `success=False` with the error message when the
publish raises. `publishOk` stands for whether the Kafka send succeeds.
The only analytics row emitted per event is the info-level
`event_published` row of the success path. -/
def process_redis_event (s : RedisState) (e : RedisEvent) (now : Int)
    (processor_id : String) (publishOk : Bool) (publishErr : String) :
    ProcessOutcome × List AnalyticsRec × RedisState :=
  match claim_for_processing s e.event_id processor_id now with
  | (false, s') => (.notClaimed, [], s')
  | (true, s') =>
    if publishOk then
      let r := mark_processed s' e.event_id true none now
      (.published (publishedMsg e now), [⟨.info, "event_published", e.source_id⟩], r.2)
    else
      let r := mark_processed s' e.event_id false (some publishErr) now
      (.failed publishErr, [], r.2)

/-! ## C tier (ClickHouse) and the tier-placement API —
`models/clickhouse_scheduled_event.py`, `HybridSchedulerService.schedule_event` -/

/-- `ScheduledEventStatus` from `models/clickhouse_scheduled_event.py`. -/
inductive CHStatus
  | pending
  | processing
  | completed
  | error
  | skipped
  | transferred_to_redis
deriving DecidableEq, Repr

/-- `ScheduledEventSource` from `models/clickhouse_scheduled_event.py`. -/
inductive CHSource
  | kafka_delayed
  | mongo_schedule
  | api_request
  | system
deriving DecidableEq, Repr

/-- `ClickhouseScheduledEvent` row (the fields the engine reads/writes). -/
structure CHEvent where
  schedule_id : String
  topic : String
  entity_type : String
  action : String
  entity_id : Option String
  actor_type : String
  actor_id : String
  payload : String
  correlation_id : String
  scheduled_at : Int
  max_delay_seconds : Int
  priority : Int
  source : CHSource
  source_id : Option String
  status : CHStatus
  retry_count : Nat
  max_retries : Nat
  created_at : Int
deriving DecidableEq, Repr

/-- The two mutable tiers `HybridSchedulerService.schedule_event` writes to. -/
structure SystemState where
  redis : RedisState
  clickhouse : List CHEvent
deriving DecidableEq, Repr

/-- Arguments of `HybridSchedulerService.schedule_event` with its defaults. -/
structure ScheduleArgs where
  topic : String
  entity_type : String
  action : String
  body : String
  scheduled_at : Int
  entity_id : Option String := none
  actor_type : String := "system"
  actor_id : String := "scheduler"
  correlation_id : Option String := none
  priority : Int := 0
  max_retries : Nat := 3
deriving DecidableEq, Repr

/-- The `RedisScheduledEventCreate` built by `_schedule_in_redis`: the
create schema has no `body` field, so the unknown kwarg is dropped and the
payload stays the schema default (empty dict), as do the headers. -/
def redisArgsOf (a : ScheduleArgs) (corr : String) : RedisEventCreate :=
  { topic := a.topic
    entity_type := a.entity_type
    action := a.action
    entity_id := a.entity_id
    actor_type := a.actor_type
    actor_id := a.actor_id
    payload := []
    headers := []
    scheduled_at := a.scheduled_at
    priority := a.priority
    source := "redis"
    source_id := none
    clickhouse_schedule_id := none
    max_retries := a.max_retries
    correlation_id := some corr }

/-- The ClickHouse row built by `_schedule_in_clickhouse` (`body` renamed
to `payload`), completed with the model defaults: fresh `schedule_id`,
source `api_request`, status `pending`, retry-count 0. -/
def chEventOf (a : ScheduleArgs) (freshId corr : String) (now : Int) : CHEvent :=
  { schedule_id := freshId
    topic := a.topic
    entity_type := a.entity_type
    action := a.action
    entity_id := a.entity_id
    actor_type := a.actor_type
    actor_id := a.actor_id
    payload := a.body
    correlation_id := corr
    scheduled_at := a.scheduled_at
    max_delay_seconds := 86400
    priority := a.priority
    source := .api_request
    source_id := none
    status := .pending
    retry_count := 0
    max_retries := a.max_retries
    created_at := now }

/-- `HybridSchedulerService.schedule_event`: choose a correlation id if
none was given, then place the event by `scheduled_at − now`: within the
1 h transfer window insert directly into Redis, otherwise insert a
ClickHouse row. `freshId` is the id generated for the new record and
`freshCorr` the generated correlation id. -/
def schedule_event (st : SystemState) (a : ScheduleArgs) (now : Int)
    (freshId freshCorr : String) : Except String (String × SystemState) :=
  let corr := a.correlation_id.getD freshCorr
  if a.scheduled_at - now ≤ 3600 then
    match redis_create st.redis (redisArgsOf a corr) now with
    | .error m => .error m
    | .ok (e, r') => .ok (e.event_id, { st with redis := r' })
  else
    let ev := chEventOf a freshId corr now
    .ok (ev.schedule_id, { st with clickhouse := st.clickhouse ++ [ev] })

/-! ## Cron generator — `ThreeTierSchedulerService._process_mongo_schedule`,
`CRUDMongoSchedule` (`crud/crud_mongo_schedule.py`),
`models/mongo_schedule.py` -/

/-- `ScheduleStatus` from `models/mongo_schedule.py`. -/
inductive MongoStatus
  | active
  | paused
  | disabled
  | completed
deriving DecidableEq, Repr

/-- A `MongoSchedule` document. `cronNext t` is the semantics of
`croniter(cron_expression, t).get_next(datetime)` — the first cron time
strictly after `t` — for this document's cron expression. -/
structure CronSched where
  id : String
  name : String
  status : MongoStatus
  event_type : String
  event_action : String
  event_entity_id : Option String
  event_payload : Option String
  actor_type : String
  actor_id : String
  cronNext : Int → Int
  max_retries : Nat
  last_execution : Option Int
  next_execution : Option Int
  last_status : Option String
  execution_count : Nat
  error_count : Nat

/-- The filter of `get_schedules_due_for_execution`:
`status = active ∧ next_execution ≠ null ∧ next_execution ≤ before`. -/
def isDue (sch : CronSched) (before : Int) : Bool :=
  decide (sch.status = .active) &&
    (match sch.next_execution with
     | some t => decide (t ≤ before)
     | none => false)

/-- A `MongoScheduleExecution` document as written by `record_execution`. -/
structure ExecRecord where
  schedule_id : String
  execution_time : Int
  success : Bool
  clickhouse_schedule_id : Option String
deriving DecidableEq, Repr

/-- The `ClickhouseScheduledEventCreate` built by
`ThreeTierSchedulerService._process_mongo_schedule`, completed with the
model defaults: `event_type` doubles as the topic, the payload string
defaults to an empty JSON object, the priority is 0, the source is
`mongo_schedule` with the schedule id as `source_id`, and the correlation
id is fresh. -/
def mkCronCHEvent (sch : CronSched) (next_execution : Int)
    (schedule_id corr : String) (now : Int) : CHEvent :=
  { schedule_id := schedule_id
    topic := sch.event_type
    entity_type := sch.event_type
    action := sch.event_action
    entity_id := sch.event_entity_id
    actor_type := sch.actor_type
    actor_id := sch.actor_id
    payload := sch.event_payload.getD "\x7b\x7d"
    correlation_id := corr
    scheduled_at := next_execution
    max_delay_seconds := 86400
    priority := 0
    source := .mongo_schedule
    source_id := some sch.id
    status := .pending
    retry_count := 0
    max_retries := 3
    created_at := now }

/-- Bookkeeping advance after a successful ClickHouse insert:
`record_execution` sets `last_execution` to the execution time passed to
it, increments `execution_count` and marks `last_status = success`;
`update_next_execution` stores the passed next execution time verbatim. -/
def advanceBookkeeping (sch : CronSched) (next_execution : Int) : CronSched :=
  { sch with
    last_execution := some next_execution
    execution_count := sch.execution_count + 1
    last_status := some "success"
    next_execution := some next_execution }

/-- `ThreeTierSchedulerService._process_mongo_schedule`: compute
`next_execution = croniter(cron_expression, current_time).get_next(...)`,
insert one ClickHouse event with `scheduled_at = next_execution`, and only
after a successful insert append the execution record and advance the
schedule's bookkeeping. An insert failure raises before any bookkeeping
write, and the caller's loop swallows the exception, so nothing changes
(`insertOk` stands for whether the ClickHouse insert succeeds). -/
def process_mongo_schedule (sch : CronSched) (current_time : Int)
    (schedule_id corr : String) (insertOk : Bool) :
    Option CHEvent × CronSched × List ExecRecord :=
  let next_execution := sch.cronNext current_time
  let ev := mkCronCHEvent sch next_execution schedule_id corr current_time
  if insertOk then
    (some ev, advanceBookkeeping sch next_execution,
      [⟨sch.id, next_execution, true, some ev.schedule_id⟩])
  else
    (none, sch, [])

/-- One tick of `ThreeTierSchedulerService._mongo_schedule_processor`:
select the due schedules, process each once (all inserts succeeding), and
leave the others untouched; `mkId` / `mkCorr` supply the fresh ids keyed
by schedule id. -/
def mongo_tick (scheds : List CronSched) (now : Int)
    (mkId mkCorr : String → String) : List CHEvent × List CronSched :=
  let due := scheds.filter (fun sch => isDue sch now)
  let events := due.filterMap
    (fun sch => (process_mongo_schedule sch now (mkId sch.id) (mkCorr sch.id) true).1)
  let scheds' := scheds.map (fun sch =>
    if isDue sch now then
      (process_mongo_schedule sch now (mkId sch.id) (mkCorr sch.id) true).2.1
    else sch)
  (events, scheds')

/-! ## Concrete fixtures used by witnesses and counterexamples -/

/-- A pending K-tier value record (scheduled at 100, created at 40), the
shape `get_ready_events` hands to the dispatcher. -/
def sampleEvent : RedisEvent :=
  { event_id := "e1"
    topic := "x"
    entity_type := "user"
    action := "ping"
    entity_id := none
    actor_type := "system"
    actor_id := "scheduler"
    payload := []
    headers := []
    scheduled_at := 100
    priority := 0
    source := "redis"
    source_id := some "s1"
    clickhouse_schedule_id := none
    max_retries := 3
    correlation_id := "c1"
    status := .pending
    created_at := 40
    updated_at := none
    reserved_at := none
    reserved_by := none
    processed_at := none
    retry_count := 0 }

/-- A K store holding exactly `sampleEvent`, value and index entry. -/
def sampleState : RedisState :=
  { values := [("e1", ⟨.ok sampleEvent, 7260⟩)]
    index := [("e1", 100)]
    stats := [] }

/-- A K store whose only value blob fails deserialization while its index
entry is live. -/
def corruptState : RedisState :=
  { values := [("e9", ⟨.corrupt, 7200⟩)]
    index := [("e9", 77)]
    stats := [] }

/-- A K store whose only event is expired in the index (score 100) but
sits in `reserved` state. -/
def reservedState : RedisState :=
  { values := [("r1", ⟨.ok { sampleEvent with event_id := "r1", status := .reserved }, 7260⟩)]
    index := [("r1", 100)]
    stats := [] }

/-- The spec's direct-K scenario: a request scheduled 5 s out at 36 000
(10:00:00 as seconds of the day). -/
def kDirectArgs : ScheduleArgs :=
  { topic := "x", entity_type := "a", action := "b", body := "\x7b\x7d", scheduled_at := 36005 }

/-- The same request far beyond the 1 h transfer window. -/
def longHorizonArgs : ScheduleArgs :=
  { topic := "x", entity_type := "a", action := "b", body := "\x7b\x7d", scheduled_at := 999999 }

/-- The K-tier invariant of the spec: every id visible in the time-sorted
index has a live value record that deserializes to an event in state
`pending` or `reserved`. -/
def IndexInv (s : RedisState) : Prop :=
  ∀ id score, aget id s.index = some score →
    ∃ e ttl, aget id s.values = some ⟨RedisBlob.ok e, ttl⟩ ∧
      (e.status = RedisStatus.pending ∨ e.status = RedisStatus.reserved)

/-- One transition of the K store performed by the scheduling engine
itself (read, claim, mark processed, delete, janitor cleanup). `create`
is absent because it always raises before writing (see `redis_create`),
and the admin `update` operation is deliberately not an engine step. -/
inductive KStep : RedisState → RedisState → Prop
  | get {s : RedisState} (id : String) : KStep s (getEv s id).2
  | claim {s : RedisState} (id pid : String) (now : Int) :
      KStep s (claim_for_processing s id pid now).2
  | mark {s : RedisState} (id : String) (success : Bool) (err : Option String) (now : Int) :
      KStep s (mark_processed s id success err now).2
  | del {s : RedisState} (id : String) : KStep s (redis_delete s id).2
  | cleanup {s : RedisState} (now : Int) : KStep s (cleanup_expired s now).2

/-- K states reachable from `s0` by engine transitions. -/
inductive ReachableFrom (s0 : RedisState) : RedisState → Prop
  | base : ReachableFrom s0 s0
  | tail {s s' : RedisState} (h : ReachableFrom s0 s) (hstep : KStep s s') : ReachableFrom s0 s'

/-- Semantics of the cron expression `*/5 * * * *` over integer seconds:
the next multiple of 300 strictly after `t` (for `t ≥ 0`). -/
def every5min (t : Int) : Int := (t / 300 + 1) * 300

/-- An active 5-minute cron schedule whose stored `next_execution` (100)
is already in the past at tick time 130. -/
def sampleSched : CronSched :=
  { id := "s1"
    name := "five-minutes"
    status := .active
    event_type := "user"
    event_action := "ping"
    event_entity_id := none
    event_payload := none
    actor_type := "system"
    actor_id := "scheduler"
    cronNext := every5min
    max_retries := 3
    last_execution := none
    next_execution := some 100
    last_status := none
    execution_count := 0
    error_count := 0 }

/-! ## Basic lookup lemmas -/

theorem aget_aremove {α : Type} (j k : String) (l : List (String × α)) :
    aget k (aremove j l) = if j = k then none else aget k l := by
  induction l with
  | nil => simp [aremove, aget]
  | cons p t ih =>
    obtain ⟨k', v⟩ := p
    by_cases hj : k' = j
    · subst hj
      by_cases hk : k' = k
      · subst hk; simpa [aremove, aget] using ih
      · simpa [aremove, aget, hk] using ih
    · by_cases hk : k' = k
      · subst hk
        have hjk : ¬ j = k' := fun h => hj h.symm
        simp [aremove, aget, hj, hjk]
      · simpa [aremove, aget, hj, hk] using ih

theorem aget_aset {α : Type} (j k : String) (v : α) (l : List (String × α)) :
    aget k (aset j v l) = if j = k then some v else aget k l := by
  by_cases h : j = k
  · subst h; simp [aset, aget]
  · simp [aset, aget, h, aget_aremove]

theorem aget_aset_same {α : Type} (k : String) (v : α) (l : List (String × α)) :
    aget k (aset k v l) = some v := by simp [aget_aset]

theorem aget_aremove_same {α : Type} (k : String) (l : List (String × α)) :
    aget k (aremove k l) = none := by simp [aget_aremove]

theorem removeBoth_values (s : RedisState) (id j : String) :
    aget j (removeBoth s id).values = if id = j then none else aget j s.values := by
  simp [removeBoth, aget_aremove]

theorem removeBoth_index (s : RedisState) (id j : String) :
    aget j (removeBoth s id).index = if id = j then none else aget j s.index := by
  simp [removeBoth, aget_aremove]

theorem storeValue_values (s : RedisState) (id j : String) (v : RedisValue) :
    aget j (storeValue s id v).values = if id = j then some v else aget j s.values := by
  simp [storeValue, aget_aset]

theorem storeValue_index (s : RedisState) (id : String) (v : RedisValue) :
    (storeValue s id v).index = s.index := rfl

theorem removeBoth_values_same (s : RedisState) (id : String) :
    aget id (removeBoth s id).values = none := by
  rw [removeBoth_values, if_pos rfl]

theorem removeBoth_index_same (s : RedisState) (id : String) :
    aget id (removeBoth s id).index = none := by
  rw [removeBoth_index, if_pos rfl]

/-! ## Claim C1 — the claim CAS of `claim_for_processing` -/

theorem claim_nonpending_eq (s : RedisState) (id pid : String) (now : Int)
    (e : RedisEvent) (ttl : Int)
    (hv : aget id s.values = some ⟨.ok e, ttl⟩) (hp : e.status ≠ .pending) :
    claim_for_processing s id pid now = (false, s) := by
  simp [claim_for_processing, getEv, hv, hp]

theorem claim_success_eq (s : RedisState) (id pid : String) (now : Int)
    (e : RedisEvent) (ttl : Int)
    (hv : aget id s.values = some ⟨.ok e, ttl⟩) (hp : e.status = .pending) :
    claim_for_processing s id pid now =
      (true, storeValue s id ⟨.ok (reservedCopy e pid now), (e.scheduled_at - now) + 7200⟩) := by
  simp [claim_for_processing, getEv, hv, hp, reservedCopy]

/-- Claim C1: a claim succeeds exactly when the K value exists and is
`pending`; a successful claim flips the status to `reserved` and stamps
`processor_id` and `claimed_at` into the headers under the per-id lock; a
claim on a missing or non-`pending` value returns false and leaves the
store unchanged; and a second claim on a just-claimed event cannot
succeed. -/
theorem claim_for_processing_spec (s : RedisState) (id pid : String) (now : Int) :
    ((claim_for_processing s id pid now).1 = true ↔
      ∃ e ttl, aget id s.values = some ⟨.ok e, ttl⟩ ∧ e.status = .pending)
    ∧ (∀ e ttl, aget id s.values = some ⟨.ok e, ttl⟩ → e.status = .pending →
        claim_for_processing s id pid now =
          (true, storeValue s id ⟨.ok (reservedCopy e pid now), (e.scheduled_at - now) + 7200⟩)
        ∧ (reservedCopy e pid now).status = .reserved
        ∧ aget "processor_id" (reservedCopy e pid now).headers = some pid
        ∧ aget "claimed_at" (reservedCopy e pid now).headers = some (toString now))
    ∧ (aget id s.values = none → claim_for_processing s id pid now = (false, s))
    ∧ (∀ e ttl, aget id s.values = some ⟨.ok e, ttl⟩ → e.status ≠ .pending →
        claim_for_processing s id pid now = (false, s))
    ∧ (∀ s', claim_for_processing s id pid now = (true, s') →
        ∀ pid' now', (claim_for_processing s' id pid' now').1 = false) := by
  refine ⟨⟨?_, ?_⟩, ?_, ?_, ?_, ?_⟩
  · intro h
    rcases hv : aget id s.values with _ | ⟨b, t⟩
    · simp [claim_for_processing, getEv, hv] at h
    · cases b with
      | ok e =>
        by_cases hp : e.status = .pending
        · exact ⟨e, t, rfl, hp⟩
        · simp [claim_for_processing, getEv, hv, hp] at h
      | corrupt => simp [claim_for_processing, getEv, hv] at h
  · rintro ⟨e, ttl, hv, hp⟩
    rw [claim_success_eq s id pid now e ttl hv hp]
  · intro e ttl hv hp
    refine ⟨claim_success_eq s id pid now e ttl hv hp, rfl, ?_, ?_⟩
    · show aget "processor_id"
        (aset "claimed_at" (toString now) (aset "processor_id" pid e.headers)) = some pid
      rw [aget_aset, if_neg (by decide), aget_aset_same]
    · exact aget_aset_same _ _ _
  · intro hv
    simp [claim_for_processing, getEv, hv]
  · intro e ttl hv hp
    simp [claim_for_processing, getEv, hv, hp]
  · intro s' hrun pid' now'
    rcases hv : aget id s.values with _ | ⟨b, t⟩
    · simp [claim_for_processing, getEv, hv] at hrun
    · cases b with
      | ok e =>
        by_cases hp : e.status = .pending
        · rw [claim_success_eq s id pid now e t hv hp] at hrun
          have hs' : storeValue s id
              ⟨.ok (reservedCopy e pid now), (e.scheduled_at - now) + 7200⟩ = s' := by
            simpa using hrun
          subst hs'
          rw [claim_nonpending_eq _ id pid' now' (reservedCopy e pid now)
              ((e.scheduled_at - now) + 7200) (by simp [storeValue_values])
              (by simp [reservedCopy])]
        · simp [claim_for_processing, getEv, hv, hp] at hrun
      | corrupt => simp [claim_for_processing, getEv, hv] at hrun

/-- Witness for C1 at `sampleState`: the pending event "e1" is claimed by
processor "proc-1" at time 50, and a second claim fails. -/
theorem claim_for_processing_spec_witness :
    (claim_for_processing sampleState "e1" "proc-1" 50 =
      (true, storeValue sampleState "e1"
        ⟨.ok (reservedCopy sampleEvent "proc-1" 50), (sampleEvent.scheduled_at - 50) + 7200⟩)
    ∧ (reservedCopy sampleEvent "proc-1" 50).status = .reserved
    ∧ aget "processor_id" (reservedCopy sampleEvent "proc-1" 50).headers = some "proc-1"
    ∧ aget "claimed_at" (reservedCopy sampleEvent "proc-1" 50).headers = some (toString (50 : Int))) :=
  (claim_for_processing_spec sampleState "e1" "proc-1" 50).2.1 sampleEvent 7260
    (by decide) (by decide)

/-! ## Claim C2 — what happens on a publish failure -/

/-- Counterexample to C2 as stated: the event "e1" has retry-count 0 and
max-retries 3, yet after a single publish failure its status is `error`
(not reset to `pending`), its retry-count is still 0 (never incremented),
and its index entry has been removed (not kept), so no later tick can
retry it. -/
theorem publish_failure_counterexample :
    sampleEvent.retry_count ≤ sampleEvent.max_retries
    ∧ (process_redis_event sampleState sampleEvent 150 "p1" false "publish failed").1
        = .failed "publish failed"
    ∧ aget "e1"
        (process_redis_event sampleState sampleEvent 150 "p1" false "publish failed").2.2.index
        = none
    ∧ ((aget "e1"
        (process_redis_event sampleState sampleEvent 150 "p1" false "publish failed").2.2.values).map
          (fun v => (v.ttl, match v.blob with
            | .ok e2 => some (e2.status, e2.retry_count)
            | .corrupt => none)))
        = some (3600, some (RedisStatus.error, 0)) := by
  decide

/-- Claim C2 (amended): on a publish failure the dispatcher marks the
claimed event terminally: its status becomes `error`, its index entry is
removed and its value TTL is shortened to 1 h, with the retry-count left
untouched and no analytics row emitted — there is no retry/backoff path
regardless of retry-count versus max-retries. -/
theorem publish_failure_terminal (s : RedisState) (e : RedisEvent) (now : Int)
    (pid err : String) (e0 : RedisEvent) (ttl0 : Int)
    (hv : aget e.event_id s.values = some ⟨.ok e0, ttl0⟩)
    (hp : e0.status = .pending) :
    ∃ e2,
      (process_redis_event s e now pid false err).1 = .failed err
      ∧ (process_redis_event s e now pid false err).2.1 = []
      ∧ aget e.event_id (process_redis_event s e now pid false err).2.2.values
          = some ⟨.ok e2, 3600⟩
      ∧ aget e.event_id (process_redis_event s e now pid false err).2.2.index = none
      ∧ e2.status = .error
      ∧ e2.retry_count = e0.retry_count
      ∧ aget "error_message" e2.headers = some err := by
  have h1 := claim_success_eq s e.event_id pid now e0 ttl0 hv hp
  have hvX : aget e.event_id (storeValue s e.event_id
      ⟨.ok (reservedCopy e0 pid now), (e0.scheduled_at - now) + 7200⟩).values
      = some ⟨.ok (reservedCopy e0 pid now), (e0.scheduled_at - now) + 7200⟩ := by
    simp [storeValue_values]
  refine ⟨processedCopy (reservedCopy e0 pid now) false (some err) now,
    ?_, ?_, ?_, ?_, rfl, rfl, aget_aset_same _ _ _⟩
  · simp [process_redis_event, h1, mark_processed, getEv, hvX]
  · simp [process_redis_event, h1, mark_processed, getEv, hvX]
  · simp [process_redis_event, h1, mark_processed, getEv, hvX, aget_aset_same]
  · simp [process_redis_event, h1, mark_processed, getEv, storeValue,
      aget_aset_same, aget_aremove_same]

/-- Witness for the amended C2 at `sampleState`. -/
theorem publish_failure_terminal_witness :
    ∃ e2,
      (process_redis_event sampleState sampleEvent 150 "p1" false "boom").1 = .failed "boom"
      ∧ (process_redis_event sampleState sampleEvent 150 "p1" false "boom").2.1 = []
      ∧ aget "e1" (process_redis_event sampleState sampleEvent 150 "p1" false "boom").2.2.values
          = some ⟨.ok e2, 3600⟩
      ∧ aget "e1" (process_redis_event sampleState sampleEvent 150 "p1" false "boom").2.2.index = none
      ∧ e2.status = .error
      ∧ e2.retry_count = sampleEvent.retry_count
      ∧ aget "error_message" e2.headers = some "boom" :=
  publish_failure_terminal sampleState sampleEvent 150 "p1" "boom" sampleEvent 7260
    (by decide) (by decide)

/-! ## Claim C8 — staleness handling at dispatch -/

/-- Counterexample to C8 as stated: "e1" is dispatched 99 900 s after its
scheduled time (far beyond the 86 400 s default max delay), yet it is
published with no `stale` header, the only analytics row is info-level
(no warning), and the event is marked `completed` (never `skipped`). -/
theorem stale_counterexample :
    (100000 : Int) - sampleEvent.scheduled_at > 86400
    ∧ (match (process_redis_event sampleState sampleEvent 100000 "p1" true "").1 with
       | .published m => some (aget "stale" m.metadata)
       | _ => none) = some none
    ∧ (process_redis_event sampleState sampleEvent 100000 "p1" true "").2.1
        = [⟨.info, "event_published", some "s1"⟩]
    ∧ ((aget "e1" (process_redis_event sampleState sampleEvent 100000 "p1" true "").2.2.values).map
        (fun v => match v.blob with
          | .ok e2 => some e2.status
          | .corrupt => none))
        = some (some RedisStatus.completed) := by
  decide

/-- Claim C8 (amended): the dispatcher never consults staleness: an event
claimed arbitrarily later than `scheduled_at + 86400` is published with
its metadata equal to the candidate's headers (no `stale` key is added),
the analytics row is info-level `event_published`, and the event is
marked `completed` — never `skipped`. -/
theorem stale_publish_no_marking (s : RedisState) (e : RedisEvent) (now : Int)
    (pid : String) (e0 : RedisEvent) (ttl0 : Int)
    (hv : aget e.event_id s.values = some ⟨.ok e0, ttl0⟩)
    (hp : e0.status = .pending)
    (hstale : now - e.scheduled_at > 86400) :
    ∃ msg e2,
      (process_redis_event s e now pid true "").1 = .published msg
      ∧ msg.metadata = e.headers
      ∧ aget "stale" msg.metadata = aget "stale" e.headers
      ∧ (process_redis_event s e now pid true "").2.1
          = [⟨.info, "event_published", e.source_id⟩]
      ∧ aget e.event_id (process_redis_event s e now pid true "").2.2.values
          = some ⟨.ok e2, 3600⟩
      ∧ e2.status = .completed
      ∧ aget e.event_id (process_redis_event s e now pid true "").2.2.index = none := by
  have h1 := claim_success_eq s e.event_id pid now e0 ttl0 hv hp
  have hvX : aget e.event_id (storeValue s e.event_id
      ⟨.ok (reservedCopy e0 pid now), (e0.scheduled_at - now) + 7200⟩).values
      = some ⟨.ok (reservedCopy e0 pid now), (e0.scheduled_at - now) + 7200⟩ := by
    simp [storeValue_values]
  refine ⟨publishedMsg e now, processedCopy (reservedCopy e0 pid now) true none now,
    ?_, rfl, rfl, ?_, ?_, rfl, ?_⟩
  · simp [process_redis_event, h1, mark_processed, getEv, hvX]
  · simp [process_redis_event, h1, mark_processed, getEv, hvX]
  · simp [process_redis_event, h1, mark_processed, getEv, hvX, aget_aset_same]
  · simp [process_redis_event, h1, mark_processed, getEv, storeValue,
      aget_aset_same, aget_aremove_same]

/-- Witness for the amended C8 at `sampleState`, dispatched at 100 000. -/
theorem stale_publish_no_marking_witness :
    ∃ msg e2,
      (process_redis_event sampleState sampleEvent 100000 "p1" true "").1 = .published msg
      ∧ msg.metadata = sampleEvent.headers
      ∧ aget "stale" msg.metadata = aget "stale" sampleEvent.headers
      ∧ (process_redis_event sampleState sampleEvent 100000 "p1" true "").2.1
          = [⟨.info, "event_published", sampleEvent.source_id⟩]
      ∧ aget "e1" (process_redis_event sampleState sampleEvent 100000 "p1" true "").2.2.values
          = some ⟨.ok e2, 3600⟩
      ∧ e2.status = .completed
      ∧ aget "e1" (process_redis_event sampleState sampleEvent 100000 "p1" true "").2.2.index
          = none :=
  stale_publish_no_marking sampleState sampleEvent 100000 "p1" sampleEvent 7260
    (by decide) (by decide) (by decide)

/-! ## Claim C3 — tier placement of `schedule_event` -/

/-- Claim C3 (code bug): within the 1 h window the Redis-direct branch
never inserts and never returns a K id — `redis_create` raises the
pydantic `ValidationError` on every call, which `schedule_event`
surfaces, leaving both tiers untouched; only the long-horizon branch
works: it appends a ClickHouse row with status `pending` and returns the
C id, leaving the K tier untouched. Evaluated at the spec's direct-K
scenario (now = 36 000, scheduled 5 s out) and at a far-out request. -/
theorem schedule_event_validation_bug :
    (match schedule_event ⟨⟨[], [], []⟩, []⟩ kDirectArgs 36000 "k1" "c1" with
     | .error m => some m
     | .ok _ => none) = some redisCreateValidationErr
    ∧ ((36005 : Int) - 36000 ≤ 3600)
    ∧ ((schedule_event ⟨⟨[], [], []⟩, []⟩ longHorizonArgs 36000 "h1" "c1").toOption.map
        (fun r => (r.1, r.2.redis,
          r.2.clickhouse.map (fun ev => (ev.schedule_id, ev.status, ev.scheduled_at)))))
      = some ("h1", ⟨[], [], []⟩, [("h1", CHStatus.pending, 999999)]) := by
  decide

/-! ## Claims C5, C6, C7 — the cron generator -/

/-- Counterexample to C5 as stated: a due schedule whose stored
`next_execution` is 100 (so it is due at tick time 130 for the 5-minute
cron whose next time after 130 is 300) generates its ClickHouse event
with `scheduled_at = 300`, computed afresh from the cron expression and
the tick clock, not the stored fire time 100. -/
theorem cron_fire_time_counterexample :
    isDue sampleSched 130 = true
    ∧ sampleSched.next_execution = some 100
    ∧ ((process_mongo_schedule sampleSched 130 "ch1" "co1" true).1).map
        (fun ev => ev.scheduled_at) = some 300
    ∧ (300 : Int) ≠ 100 := by
  refine ⟨rfl, rfl, ?_, by decide⟩
  rfl

/-- Claim C5 (amended): the generated C-tier event's `scheduled_at` equals
`cron.next_after(now)` — the next cron time computed afresh from the cron
expression at the tick's current time — and carries source `mongo_schedule`
with the definition id; the stored `next_fire` is used only to select due
schedules. -/
theorem cron_event_scheduled_at (sch : CronSched) (now : Int) (cid corr : String) :
    ((process_mongo_schedule sch now cid corr true).1).map (fun ev => ev.scheduled_at)
        = some (sch.cronNext now)
    ∧ ((process_mongo_schedule sch now cid corr true).1).map (fun ev => ev.source_id)
        = some (some sch.id)
    ∧ ((process_mongo_schedule sch now cid corr true).1).map (fun ev => ev.status)
        = some CHStatus.pending := ⟨rfl, rfl, rfl⟩

/-- Claim C7: when the ClickHouse insert fails, no bookkeeping advance
occurs — the schedule document is returned unchanged (same `next_fire`,
`last_execution`, `execution_count`), no execution record is appended, no
event is produced, and the schedule stays due for the next tick exactly
when it was due before. -/
theorem cron_insert_failure_no_advance (sch : CronSched) (now : Int) (cid corr : String) :
    process_mongo_schedule sch now cid corr false = (none, sch, [])
    ∧ (∀ t, isDue (process_mongo_schedule sch now cid corr false).2.1 t = isDue sch t) :=
  ⟨rfl, fun _ => rfl⟩

/-! Counting helpers for claim C6. -/

theorem tick_events_map (l : List CronSched) (now : Int) (mkId mkCorr : String → String) :
    l.filterMap (fun x => (process_mongo_schedule x now (mkId x.id) (mkCorr x.id) true).1)
      = l.map (fun x => mkCronCHEvent x (x.cronNext now) (mkId x.id) (mkCorr x.id) now) := by
  induction l with
  | nil => rfl
  | cons b t ih =>
    rw [List.filterMap_cons, List.map_cons]
    exact congrArg (List.cons _) ih

theorem filter_due_id (l : List CronSched) (now : Int) (sch : CronSched)
    (hmem : sch ∈ l) (hnd : (l.map CronSched.id).Nodup) :
    (l.filter (fun x => decide (x.id = sch.id) && isDue x now)).length
      = if isDue sch now then 1 else 0 := by
  induction l with
  | nil => cases hmem
  | cons b t ih =>
    rw [List.map_cons, List.nodup_cons] at hnd
    rcases List.mem_cons.mp hmem with hE | hmem'
    · subst hE
      have hzero : t.filter (fun x => decide (x.id = sch.id) && isDue x now) = [] := by
        apply List.filter_eq_nil_iff.mpr
        intro x hx
        simp only [Bool.and_eq_true, decide_eq_true_eq, not_and]
        intro hxid _
        exact hnd.1 (hxid ▸ List.mem_map_of_mem CronSched.id hx)
      by_cases hd : isDue sch now = true
      · rw [List.filter_cons_of_pos (by simp [hd]), hzero, if_pos hd]
        rfl
      · rw [List.filter_cons_of_neg (by simp [hd]), hzero, if_neg hd]
        rfl
    · have hb : ¬ b.id = sch.id := by
        intro hE
        exact hnd.1 (hE ▸ List.mem_map_of_mem CronSched.id hmem')
      rw [List.filter_cons_of_neg (by simp [hb])]
      exact ih hmem' hnd.2

theorem tick_count (scheds : List CronSched) (now : Int) (mkId mkCorr : String → String)
    (sch : CronSched) (hmem : sch ∈ scheds) (hnd : (scheds.map CronSched.id).Nodup) :
    ((mongo_tick scheds now mkId mkCorr).1.filter
        (fun ev => decide (ev.source_id = some sch.id))).length
      = if isDue sch now then 1 else 0 := by
  have hm : (mongo_tick scheds now mkId mkCorr).1
      = (scheds.filter (fun x => isDue x now)).map
          (fun x => mkCronCHEvent x (x.cronNext now) (mkId x.id) (mkCorr x.id) now) := by
    simp only [mongo_tick]
    exact tick_events_map _ _ _ _
  have hpred : ((fun ev => decide (ev.source_id = some sch.id)) ∘
      (fun x => mkCronCHEvent x (x.cronNext now) (mkId x.id) (mkCorr x.id) now))
      = fun x => decide (x.id = sch.id) := by
    funext x
    simp [Function.comp, mkCronCHEvent]
  rw [hm, List.filter_map, hpred, List.length_map, List.filter_filter]
  exact filter_due_id scheds now sch hmem hnd

/-- Claim C6: in one generator tick over schedules with distinct ids, a
due schedule fires exactly once (a non-due one not at all), and its
`next_fire` is advanced to `cron.next_after(now)`; when the cron semantics
returns a strictly future time, the new `next_fire` is strictly in the
future, so firings missed during an outage are never back-filled. -/
theorem mongo_tick_spec (scheds : List CronSched) (now : Int)
    (mkId mkCorr : String → String) (sch : CronSched)
    (hmem : sch ∈ scheds) (hnd : (scheds.map CronSched.id).Nodup)
    (hcron : now < sch.cronNext now) :
    ((mongo_tick scheds now mkId mkCorr).1.filter
        (fun ev => decide (ev.source_id = some sch.id))).length
      = (if isDue sch now then 1 else 0)
    ∧ (isDue sch now = true →
        ∃ sch', sch' ∈ (mongo_tick scheds now mkId mkCorr).2
          ∧ sch'.id = sch.id
          ∧ sch'.next_execution = some (sch.cronNext now)
          ∧ sch'.last_execution = some (sch.cronNext now)
          ∧ sch'.execution_count = sch.execution_count + 1
          ∧ now < sch.cronNext now) := by
  constructor
  · exact tick_count scheds now mkId mkCorr sch hmem hnd
  · intro hd
    refine ⟨(process_mongo_schedule sch now (mkId sch.id) (mkCorr sch.id) true).2.1, ?_,
      by simp [process_mongo_schedule, advanceBookkeeping],
      by simp [process_mongo_schedule, advanceBookkeeping],
      by simp [process_mongo_schedule, advanceBookkeeping],
      by simp [process_mongo_schedule, advanceBookkeeping], hcron⟩
    have : (fun x => if isDue x now then
        (process_mongo_schedule x now (mkId x.id) (mkCorr x.id) true).2.1 else x) sch
        = (process_mongo_schedule sch now (mkId sch.id) (mkCorr sch.id) true).2.1 := by
      simp [hd]
    exact this ▸ List.mem_map_of_mem _ hmem

/-- Witness for C6: the single due schedule `sampleSched` at tick 130
fires once and its next fire advances to 300. -/
theorem mongo_tick_spec_witness :
    ((mongo_tick [sampleSched] 130 (fun s => s ++ "-ev") (fun s => s ++ "-co")).1.filter
        (fun ev => decide (ev.source_id = some sampleSched.id))).length
      = (if isDue sampleSched 130 then 1 else 0)
    ∧ (isDue sampleSched 130 = true →
        ∃ sch', sch' ∈ (mongo_tick [sampleSched] 130 (fun s => s ++ "-ev") (fun s => s ++ "-co")).2
          ∧ sch'.id = sampleSched.id
          ∧ sch'.next_execution = some (sampleSched.cronNext 130)
          ∧ sch'.last_execution = some (sampleSched.cronNext 130)
          ∧ sch'.execution_count = sampleSched.execution_count + 1
          ∧ (130 : Int) < sampleSched.cronNext 130) :=
  mongo_tick_spec [sampleSched] 130 (fun s => s ++ "-ev") (fun s => s ++ "-co") sampleSched
    (List.mem_singleton.mpr rfl) (by simp) (by decide)

/-! ## Claim C10 — corrupted blobs are dropped by `get` -/

/-- Claim C10: reading an event whose stored blob cannot be deserialized
deletes both the value record and the index entry and returns nothing. -/
theorem get_corrupt_drops (s : RedisState) (id : String) (v : RedisValue)
    (hv : aget id s.values = some v) (hc : v.blob = .corrupt) :
    getEv s id = (none, removeBoth s id)
    ∧ aget id (getEv s id).2.values = none
    ∧ aget id (getEv s id).2.index = none := by
  have h1 : getEv s id = (none, removeBoth s id) := by simp [getEv, hv, hc]
  refine ⟨h1, ?_, ?_⟩ <;> rw [h1] <;> simp [removeBoth_values, removeBoth_index]

/-- Witness for C10 at `corruptState`: reading "e9" drops it entirely. -/
theorem get_corrupt_drops_witness :
    getEv corruptState "e9" = (none, removeBoth corruptState "e9")
    ∧ aget "e9" (getEv corruptState "e9").2.values = none
    ∧ aget "e9" (getEv corruptState "e9").2.index = none :=
  get_corrupt_drops corruptState "e9" ⟨.corrupt, 7200⟩ (by decide) (by decide)

/-! ## Claim C4 — the value/index invariant of the K tier -/

theorem indexInv_stats (s : RedisState) (st : List (String × Int)) (h : IndexInv s) :
    IndexInv { s with stats := st } :=
  fun id score hidx => h id score hidx

theorem indexInv_removeBoth (s : RedisState) (id0 : String) (h : IndexInv s) :
    IndexInv (removeBoth s id0) := by
  intro id score hidx
  rw [removeBoth_index] at hidx
  by_cases hE : id0 = id
  · rw [if_pos hE] at hidx; cases hidx
  · rw [if_neg hE] at hidx
    obtain ⟨e, ttl, hv, hs⟩ := h id score hidx
    exact ⟨e, ttl, by rw [removeBoth_values, if_neg hE]; exact hv, hs⟩

theorem indexInv_getEv (s : RedisState) (id0 : String) (h : IndexInv s) :
    IndexInv (getEv s id0).2 := by
  rcases hv : aget id0 s.values with _ | v
  · simpa [getEv, hv] using h
  · rcases v with ⟨b, t⟩
    cases b with
    | ok e => simpa [getEv, hv] using h
    | corrupt =>
      simp only [getEv, hv]
      exact indexInv_removeBoth s id0 h

theorem indexInv_claim (s : RedisState) (id pid : String) (now : Int) (h : IndexInv s) :
    IndexInv (claim_for_processing s id pid now).2 := by
  rcases hv : aget id s.values with _ | v
  · simpa [claim_for_processing, getEv, hv] using h
  · rcases v with ⟨b, t⟩
    cases b with
    | corrupt =>
      simp only [claim_for_processing, getEv, hv]
      exact indexInv_removeBoth s id h
    | ok e =>
      by_cases hp : e.status = RedisStatus.pending
      · rw [claim_success_eq s id pid now e t hv hp]
        intro j score hj
        have hj' : aget j s.index = some score := hj
        by_cases hE : id = j
        · subst hE
          refine ⟨reservedCopy e pid now, (e.scheduled_at - now) + 7200, ?_, Or.inr rfl⟩
          rw [show ((true, storeValue s id ⟨RedisBlob.ok (reservedCopy e pid now),
            (e.scheduled_at - now) + 7200⟩).2) = storeValue s id ⟨RedisBlob.ok
            (reservedCopy e pid now), (e.scheduled_at - now) + 7200⟩ from rfl]
          rw [storeValue_values, if_pos rfl]
        · obtain ⟨e', ttl', hv', hs'⟩ := h j score hj'
          refine ⟨e', ttl', ?_, hs'⟩
          rw [show ((true, storeValue s id ⟨RedisBlob.ok (reservedCopy e pid now),
            (e.scheduled_at - now) + 7200⟩).2) = storeValue s id ⟨RedisBlob.ok
            (reservedCopy e pid now), (e.scheduled_at - now) + 7200⟩ from rfl]
          rw [storeValue_values, if_neg hE]
          exact hv'
      · rw [claim_nonpending_eq s id pid now e t hv hp]
        exact h

theorem indexInv_mark (s : RedisState) (id : String) (success : Bool)
    (err : Option String) (now : Int) (h : IndexInv s) :
    IndexInv (mark_processed s id success err now).2 := by
  rcases hv : aget id s.values with _ | v
  · simpa [mark_processed, getEv, hv] using h
  · rcases v with ⟨b, t⟩
    cases b with
    | corrupt =>
      simp only [mark_processed, getEv, hv]
      exact indexInv_removeBoth s id h
    | ok e =>
      simp only [mark_processed, getEv, hv]
      intro j score hj
      have hj' : aget j (aremove id s.index) = some score := hj
      rw [aget_aremove] at hj'
      by_cases hE : id = j
      · rw [if_pos hE] at hj'; cases hj'
      · rw [if_neg hE] at hj'
        obtain ⟨e', ttl', hv', hs'⟩ := h j score hj'
        refine ⟨e', ttl', ?_, hs'⟩
        show aget j (aset id ⟨RedisBlob.ok (processedCopy e success err now), 3600⟩ s.values)
          = some ⟨RedisBlob.ok e', ttl'⟩
        rw [aget_aset, if_neg hE]
        exact hv'

theorem indexInv_delete (s : RedisState) (id : String) (h : IndexInv s) :
    IndexInv (redis_delete s id).2 := by
  by_cases hd : (aget id s.values).isSome = true
  · simp only [redis_delete, if_pos hd]
    exact indexInv_stats _ _ (indexInv_removeBoth s id h)
  · simp only [redis_delete, if_neg hd]
    exact indexInv_removeBoth s id h

theorem indexInv_cleanupStep (acc : RedisState × Nat) (id : String) (h : IndexInv acc.1) :
    IndexInv (cleanupStep acc id).1 := by
  obtain ⟨st, cnt⟩ := acc
  rcases hv : aget id st.values with _ | v
  · simp only [cleanupStep, getEv, hv]
    exact indexInv_removeBoth st id h
  · rcases v with ⟨b, t⟩
    cases b with
    | corrupt =>
      simp only [cleanupStep, getEv, hv]
      exact indexInv_removeBoth _ id (indexInv_removeBoth st id h)
    | ok e =>
      by_cases hp : e.status = RedisStatus.pending
      · simp only [cleanupStep, getEv, hv, if_pos hp]
        exact indexInv_removeBoth st id h
      · simp only [cleanupStep, getEv, hv, if_neg hp]
        exact h

theorem indexInv_cleanupFold (ids : List String) (acc : RedisState × Nat)
    (h : IndexInv acc.1) : IndexInv (ids.foldl cleanupStep acc).1 := by
  induction ids generalizing acc with
  | nil => exact h
  | cons a t ih => exact ih _ (indexInv_cleanupStep acc a h)

theorem indexInv_cleanup (s : RedisState) (now : Int) (h : IndexInv s) :
    IndexInv (cleanup_expired s now).2 := by
  simp only [cleanup_expired]
  split
  · exact h
  · split
    · exact indexInv_stats _ _ (indexInv_cleanupFold _ _ h)
    · exact indexInv_cleanupFold _ _ h

theorem indexInv_step (s s' : RedisState) (h : IndexInv s) (hstep : KStep s s') :
    IndexInv s' := by
  cases hstep with
  | get id => exact indexInv_getEv s id h
  | claim id pid now => exact indexInv_claim s id pid now h
  | mark id success err now => exact indexInv_mark s id success err now h
  | del id => exact indexInv_delete s id h
  | cleanup now => exact indexInv_cleanup s now h

/-- Counterexample to C4 as stated: at `sampleState`, the admin `update`
operation sets the terminal status `completed` while leaving the index
entry in place and re-SETEXing the value with a time-to-fire TTL (7250 s,
not the 1 h analytics TTL), so an id can sit in the index while its value
is terminal. -/
theorem index_invariant_counterexample :
    ((redis_update sampleState "e1" { status := some RedisStatus.completed } 50).toOption.map
      (fun r => (aget "e1" r.2.index,
        (aget "e1" r.2.values).map (fun v => (v.ttl, match v.blob with
          | RedisBlob.ok e2 => some e2.status
          | RedisBlob.corrupt => none)))))
    = some (some 100, some (7250, some RedisStatus.completed)) := by
  decide

/-- Claim C4 (amended): the invariant "id in index ⇒ live value with
status pending or reserved" is preserved by every engine transition the
store actually performs (get, claim, mark-processed, delete, cleanup),
so whenever it holds it keeps holding through any run of engine steps.
The create path adds nothing — `redis_create` raises a validation error
on every call before writing. `mark_processed` — the only terminal
transition the dispatcher performs — removes the index entry and
shortens the value TTL to 3600 s in the same pipeline. The admin
`update` operation, which can set a terminal status while keeping the
index entry, is not an engine transition. -/
theorem k_value_index_invariant :
    (∀ s s', IndexInv s → KStep s s' → IndexInv s')
    ∧ (∀ s0 s, IndexInv s0 → ReachableFrom s0 s → IndexInv s)
    ∧ (∀ s c now e s', redis_create s c now ≠ .ok (e, s'))
    ∧ (∀ s id success err now e0 ttl0,
        aget id s.values = some ⟨RedisBlob.ok e0, ttl0⟩ →
        (mark_processed s id success err now).1 = true
        ∧ aget id (mark_processed s id success err now).2.index = none
        ∧ aget id (mark_processed s id success err now).2.values
            = some ⟨.ok (processedCopy e0 success err now), 3600⟩) := by
  refine ⟨fun s s' h hstep => indexInv_step s s' h hstep, ?_, ?_, ?_⟩
  · intro s0 s h0 hr
    induction hr with
    | base => exact h0
    | tail h hstep ih => exact indexInv_step _ _ ih hstep
  · intro s c now e s' hc
    rw [redis_create] at hc
    split at hc
    · cases hc
    · split at hc
      · cases hc
      · cases hc
  · intro s id success err now e0 ttl0 hv
    refine ⟨?_, ?_, ?_⟩
    · simp [mark_processed, getEv, hv]
    · simp only [mark_processed, getEv, hv]
      show aget id (aremove id s.index) = none
      exact aget_aremove_same _ _
    · simp only [mark_processed, getEv, hv]
      show aget id (aset id ⟨RedisBlob.ok (processedCopy e0 success err now), 3600⟩ s.values)
        = some ⟨RedisBlob.ok (processedCopy e0 success err now), 3600⟩
      exact aget_aset_same _ _ _

/-- The store holding only the pending `sampleEvent` satisfies the
invariant. -/
theorem indexInv_sampleState : IndexInv sampleState := by
  intro id score hidx
  by_cases hE : "e1" = id
  · subst hE
    exact ⟨sampleEvent, 7260, rfl, Or.inl rfl⟩
  · rw [show aget id sampleState.index = none from by simp [sampleState, aget, hE]] at hidx
    cases hidx

/-- Witness for the amended C4: `sampleState` satisfies the invariant and
still does after a concrete claim step; marking "e1" processed there
removes the index entry and stores the terminal copy with a 3600 s TTL. -/
theorem k_value_index_invariant_witness :
    IndexInv (claim_for_processing sampleState "e1" "p1" 50).2
    ∧ ((mark_processed sampleState "e1" true none 150).1 = true
      ∧ aget "e1" (mark_processed sampleState "e1" true none 150).2.index = none
      ∧ aget "e1" (mark_processed sampleState "e1" true none 150).2.values
          = some ⟨.ok (processedCopy sampleEvent true none 150), 3600⟩) :=
  ⟨k_value_index_invariant.1 sampleState _ indexInv_sampleState (KStep.claim "e1" "p1" 50),
   k_value_index_invariant.2.2.2 sampleState "e1" true none 150 sampleEvent 7260 (by decide)⟩

/-! ## Claim C9 — the expired-entry cleanup -/

theorem aget_mem {α : Type} (k : String) (v : α) (l : List (String × α))
    (h : aget k l = some v) : (k, v) ∈ l := by
  induction l with
  | nil => cases h
  | cons p t ih =>
    obtain ⟨k', v'⟩ := p
    by_cases hE : k' = k
    · subst hE
      rw [aget, if_pos rfl] at h
      obtain rfl : v' = v := Option.some.inj h
      exact List.mem_cons_self _ _
    · rw [aget, if_neg hE] at h
      exact List.mem_cons_of_mem _ (ih h)

theorem aget_of_mem_nodup {α : Type} (k : String) (v' : α) (l : List (String × α))
    (hnd : (l.map Prod.fst).Nodup) (hmem : (k, v') ∈ l) : aget k l = some v' := by
  induction l with
  | nil => cases hmem
  | cons p t ih =>
    obtain ⟨k', w⟩ := p
    rw [List.map_cons, List.nodup_cons] at hnd
    rcases List.mem_cons.mp hmem with hE | hmem'
    · obtain ⟨hk, hw⟩ := Prod.mk.inj hE.symm
      subst hk
      rw [aget, if_pos rfl, hw]
    · by_cases hk : k' = k
      · subst hk
        exact absurd (List.mem_map_of_mem Prod.fst hmem') hnd.1
      · rw [aget, if_neg hk]
        exact ih hnd.2 hmem'

theorem cleanupStep_keeps (st : RedisState) (cnt : Nat) (a : String)
    (e : RedisEvent) (ttl : Int) (hv : aget a st.values = some ⟨.ok e, ttl⟩)
    (hp : e.status ≠ RedisStatus.pending) :
    cleanupStep (st, cnt) a = (st, cnt) := by
  simp [cleanupStep, getEv, hv, hp]

theorem cleanupStep_removes (st : RedisState) (cnt : Nat) (a : String)
    (hcase : ∀ e ttl, aget a st.values = some ⟨.ok e, ttl⟩ →
      e.status = RedisStatus.pending) :
    aget a (cleanupStep (st, cnt) a).1.values = none
    ∧ aget a (cleanupStep (st, cnt) a).1.index = none := by
  rcases hv : aget a st.values with _ | v
  · simp only [cleanupStep, getEv, hv]
    exact ⟨removeBoth_values_same _ _, removeBoth_index_same _ _⟩
  · rcases v with ⟨b, t⟩
    cases b with
    | corrupt =>
      simp only [cleanupStep, getEv, hv]
      exact ⟨removeBoth_values_same _ _, removeBoth_index_same _ _⟩
    | ok e =>
      have hp : e.status = RedisStatus.pending := hcase e t hv
      simp only [cleanupStep, getEv, hv, if_pos hp]
      exact ⟨removeBoth_values_same _ _, removeBoth_index_same _ _⟩

theorem cleanupStep_other (st : RedisState) (cnt : Nat) (a j : String) (hne : a ≠ j) :
    aget j (cleanupStep (st, cnt) a).1.values = aget j st.values
    ∧ aget j (cleanupStep (st, cnt) a).1.index = aget j st.index := by
  rcases hv : aget a st.values with _ | v
  · simp only [cleanupStep, getEv, hv]
    exact ⟨by rw [removeBoth_values, if_neg hne], by rw [removeBoth_index, if_neg hne]⟩
  · rcases v with ⟨b, t⟩
    cases b with
    | corrupt =>
      simp only [cleanupStep, getEv, hv]
      constructor
      · rw [removeBoth_values, if_neg hne, removeBoth_values, if_neg hne]
      · rw [removeBoth_index, if_neg hne, removeBoth_index, if_neg hne]
    | ok e =>
      by_cases hp : e.status = RedisStatus.pending
      · simp only [cleanupStep, getEv, hv, if_pos hp]
        exact ⟨by rw [removeBoth_values, if_neg hne], by rw [removeBoth_index, if_neg hne]⟩
      · simp [cleanupStep, getEv, hv, hp]

theorem cleanupFold_other (ids : List String) (acc : RedisState × Nat) (j : String)
    (hj : j ∉ ids) :
    aget j (ids.foldl cleanupStep acc).1.values = aget j acc.1.values
    ∧ aget j (ids.foldl cleanupStep acc).1.index = aget j acc.1.index := by
  induction ids generalizing acc with
  | nil => exact ⟨rfl, rfl⟩
  | cons a t ih =>
    have hne : a ≠ j := fun hE => hj (by rw [← hE]; exact List.mem_cons_self a t)
    have hj' : j ∉ t := fun hE => hj (List.mem_cons_of_mem a hE)
    obtain ⟨st, cnt⟩ := acc
    have h1 := cleanupStep_other st cnt a j hne
    have h2 := ih (cleanupStep (st, cnt) a) hj'
    exact ⟨h2.1.trans h1.1, h2.2.trans h1.2⟩

theorem cleanupFold_self (ids : List String) (a : String) (acc : RedisState × Nat)
    (hnd : ids.Nodup) (ha : a ∈ ids) :
    (∀ e ttl, aget a acc.1.values = some ⟨.ok e, ttl⟩ →
        e.status ≠ RedisStatus.pending →
      aget a (ids.foldl cleanupStep acc).1.values = aget a acc.1.values
      ∧ aget a (ids.foldl cleanupStep acc).1.index = aget a acc.1.index)
    ∧ ((∀ e ttl, aget a acc.1.values = some ⟨.ok e, ttl⟩ →
        e.status = RedisStatus.pending) →
      aget a (ids.foldl cleanupStep acc).1.values = none
      ∧ aget a (ids.foldl cleanupStep acc).1.index = none) := by
  induction ids generalizing acc with
  | nil => cases ha
  | cons b t ih =>
    rw [List.nodup_cons] at hnd
    obtain ⟨st, cnt⟩ := acc
    rcases List.mem_cons.mp ha with hE | ha'
    · subst hE
      constructor
      · intro e ttl hv hp
        rw [List.foldl_cons, cleanupStep_keeps st cnt a e ttl hv hp]
        exact cleanupFold_other t (st, cnt) a hnd.1
      · intro hall
        have hrem := cleanupStep_removes st cnt a hall
        rw [List.foldl_cons]
        have hother := cleanupFold_other t (cleanupStep (st, cnt) a) a hnd.1
        exact ⟨hother.1.trans hrem.1, hother.2.trans hrem.2⟩
    · have hne : b ≠ a := fun hE => hnd.1 (by rw [hE]; exact ha')
      have hstep := cleanupStep_other st cnt b a hne
      rw [List.foldl_cons]
      have hrec := ih (cleanupStep (st, cnt) b) hnd.2 ha'
      constructor
      · intro e ttl hv hp
        have hv' : aget a (cleanupStep (st, cnt) b).1.values = some ⟨.ok e, ttl⟩ := by
          rw [hstep.1]; exact hv
        have h2 := hrec.1 e ttl hv' hp
        exact ⟨h2.1.trans hstep.1, h2.2.trans hstep.2⟩
      · intro hall
        have hall' : ∀ e ttl, aget a (cleanupStep (st, cnt) b).1.values
            = some ⟨.ok e, ttl⟩ → e.status = RedisStatus.pending := by
          intro e ttl hv
          exact hall e ttl (by rw [← hstep.1]; exact hv)
        exact hrec.2 hall'

theorem cleanup_expired_lookup (s : RedisState) (now : Int) (j : String) :
    aget j (cleanup_expired s now).2.values = aget j (cleanupScan s now).1.values
    ∧ aget j (cleanup_expired s now).2.index = aget j (cleanupScan s now).1.index := by
  simp only [cleanup_expired]
  split
  · next hc =>
    have hnil : expiredIdsOf s now = [] := List.isEmpty_iff.mp hc
    rw [cleanupScan, hnil]
    exact ⟨rfl, rfl⟩
  · split <;> exact ⟨rfl, rfl⟩

/-- Counterexample to C9 as stated: "e1" is 900 s past its score of 100 at
time 1000 and its value record still exists (status `pending`), yet the
cleanup deletes both the index entry and the value record instead of
leaving the entry in place. -/
theorem cleanup_counterexample :
    (aget "e1" sampleState.values).isSome = true
    ∧ ((100 : Int) ≤ 1000 - 300)
    ∧ (cleanup_expired sampleState 1000).1 = 1
    ∧ aget "e1" (cleanup_expired sampleState 1000).2.index = none
    ∧ aget "e1" (cleanup_expired sampleState 1000).2.values = none := by
  decide

/-- Claim C9 (amended): the cleanup removes an index entry at least 5 min
past its (non-negative) score exactly when the value record is missing,
corrupt, or still `pending` — deleting the still-pending value together
with its entry — while an expired entry whose value is in any other state
(`reserved`, `completed`, `error`) is left fully in place, as is every
entry less than 5 min past its score. -/
theorem cleanup_expired_spec (s : RedisState) (now : Int)
    (hnd : (s.index.map Prod.fst).Nodup) (id : String) (score : Int)
    (hidx : aget id s.index = some score) :
    (0 ≤ score ∧ score ≤ now - 300 →
       ((∀ e ttl, aget id s.values = some ⟨.ok e, ttl⟩ → e.status = RedisStatus.pending) →
          aget id (cleanup_expired s now).2.values = none
          ∧ aget id (cleanup_expired s now).2.index = none)
       ∧ (∀ e ttl, aget id s.values = some ⟨.ok e, ttl⟩ →
            e.status ≠ RedisStatus.pending →
          aget id (cleanup_expired s now).2.values = aget id s.values
          ∧ aget id (cleanup_expired s now).2.index = aget id s.index))
    ∧ (¬ (0 ≤ score ∧ score ≤ now - 300) →
       aget id (cleanup_expired s now).2.values = aget id s.values
       ∧ aget id (cleanup_expired s now).2.index = aget id s.index) := by
  have hmem_idx : (id, score) ∈ s.index := aget_mem id score s.index hidx
  have hndE : (expiredIdsOf s now).Nodup := by
    have hsub : ((s.index.filter
        (fun p => decide (0 ≤ p.2) && decide (p.2 ≤ now - 300))).map Prod.fst).Sublist
        (s.index.map Prod.fst) := (List.filter_sublist _).map Prod.fst
    exact hnd.sublist hsub
  have hlook := cleanup_expired_lookup s now id
  constructor
  · rintro ⟨h0, hcut⟩
    have hfil : (id, score) ∈ s.index.filter
        (fun p => decide (0 ≤ p.2) && decide (p.2 ≤ now - 300)) := by
      rw [List.mem_filter]
      exact ⟨hmem_idx, by simp [h0, hcut]⟩
    have hmemE : id ∈ expiredIdsOf s now := List.mem_map_of_mem Prod.fst hfil
    have hself := cleanupFold_self (expiredIdsOf s now) id (s, 0) hndE hmemE
    constructor
    · intro hall
      have h2 := hself.2 hall
      exact ⟨hlook.1.trans h2.1, hlook.2.trans h2.2⟩
    · intro e ttl hv hp
      have h2 := hself.1 e ttl hv hp
      exact ⟨hlook.1.trans h2.1, hlook.2.trans h2.2⟩
  · intro hrange
    have hnotE : id ∉ expiredIdsOf s now := by
      intro hmemE
      obtain ⟨p, hp, hfst⟩ := List.mem_map.mp hmemE
      rw [List.mem_filter] at hp
      obtain ⟨k, sc⟩ := p
      have hk : id = k := hfst.symm
      subst hk
      have hsc : aget id s.index = some sc := aget_of_mem_nodup id sc s.index hnd hp.1
      have hscore : sc = score := Option.some.inj (hsc.symm.trans hidx)
      have hcond := hp.2
      simp only [Bool.and_eq_true, decide_eq_true_eq] at hcond
      rw [hscore] at hcond
      exact hrange hcond
    have h2 := cleanupFold_other (expiredIdsOf s now) (s, 0) id hnotE
    exact ⟨hlook.1.trans h2.1, hlook.2.trans h2.2⟩

/-- Witness for the amended C9: at time 1000 the expired `reserved` event
"r1" survives the cleanup with value and index entry intact. -/
theorem cleanup_expired_spec_witness :
    aget "r1" (cleanup_expired reservedState 1000).2.values = aget "r1" reservedState.values
    ∧ aget "r1" (cleanup_expired reservedState 1000).2.index = aget "r1" reservedState.index :=
  ((cleanup_expired_spec reservedState 1000 (by decide) "r1" 100 (by decide)).1
    (by decide)).2 { sampleEvent with event_id := "r1", status := .reserved } 7260
    (by decide) (by decide)

end Schedules
